import Mathlib

/-!
# Verification of the Fast42 rate-aware API client core

Shallow embedding of `src/index.ts` (class `api42`): credential/token
management, quota discovery, per-credential limiter construction,
round-robin dispatch, and pagination expansion.  Pure functions are
translated directly; the mutable instance fields become an explicit
`ApiState` record threaded through the operations; external I/O
(the OAuth grant endpoint and the HTTP transport) is supplied as an
environment (`Env`), and every outbound call is recorded in a ghost
trace (`List Call`).

The dynamic behaviour of the third-party `bottleneck` scheduling
engine (reservoir draining/refilling, concurrency gating, job
expiration) is not part of this repository's sources; it is modelled
from the specification (section 4.3) as two small transition systems,
parameterised by the `BottleneckOptions` record that the source
function `createLimiter` computes.
-/

namespace Fast42

/-- `AccessToken` interface from the source (JSON body of the grant
exchange). `expires_in` is in seconds. -/
structure AccessToken where
  access_token : String
  token_type : String
  expires_in : Nat
  scope : String
  created_at : Nat
deriving Repr, DecidableEq

/-- `RateLimit` interface from the source: quota counters parsed from
the probe response headers. -/
structure RateLimit where
  id : Nat
  hourly_limit : Nat
  hourly_remaining : Nat
  secondly_limit : Nat
  secondly_remaining : Nat
deriving Repr, DecidableEq

/-- `ApiSecret` interface from the source. -/
structure ApiSecret where
  client_id : String
  client_secret : String
deriving Repr, DecidableEq, Inhabited

/-- A JS object with string keys and string values, as used for the
`options` parameters: an insertion-ordered association list. -/
abbrev OptMap := List (String × String)

/-- JS `key in obj`. -/
def hasKey (m : OptMap) (k : String) : Bool :=
  m.any (fun p => p.1 == k)

/-- JS `obj[key] = v`: overwrites in place if the key exists (keeping
its position, as JS objects do), otherwise appends. -/
def setKey (m : OptMap) (k v : String) : OptMap :=
  if hasKey m k then m.map (fun p => if p.1 == k then (k, v) else p)
  else m ++ [(k, v)]

/-- JS `obj[key]` (reading). -/
def lookupKey (m : OptMap) (k : String) : Option String :=
  (m.find? (fun p => p.1 == k)).map (fun p => p.2)

/-- An HTTP response as observed by this core: a status code and the
response headers (bodies are never inspected by the scheduler core,
except for the grant exchange which is modelled separately in `Env`). -/
structure Response where
  status : Nat
  headers : OptMap
deriving Repr, DecidableEq

/-- `response.ok` of the fetch API: status in the 2xx range. -/
def Response.ok (r : Response) : Bool :=
  decide (200 ≤ r.status ∧ r.status < 300)

/-- `response.headers.get(name)` (`null` becomes `none`). -/
def headerGet (r : Response) (k : String) : Option String :=
  lookupKey r.headers k

/-- JS `parseInt` on the decimal numerals that occur in the rate-limit
and total-count headers and in `page[size]` values; a non-numeral
(JS `NaN`) becomes `none`. -/
def jsParseInt (s : String) : Option Nat :=
  if s.data ≠ [] ∧ s.data.all (fun c => c.isDigit) then
    some (s.data.foldl (fun n c => n * 10 + (c.toNat - 48)) 0)
  else none

/-- The grant endpoint's reply for one credential: an HTTP status and,
when successful, the token JSON body. -/
structure GrantResponse where
  status : Nat
  token : AccessToken
deriving Repr, DecidableEq

/-- The external collaborators of the core: the OAuth grant endpoint
(`fetch POST https://api.intra.42.fr/oauth/token`, keyed by the
credential sent in the form body) and the HTTP transport
(`fetch GET url` with a bearer token; the response may depend on both
the url and the `Authorization` bearer value). -/
structure Env where
  grant : ApiSecret → GrantResponse
  transport : String → String → Response

/-- Decidable equality for `Except`, used to evaluate witnesses. -/
instance exceptDecEq {E A : Type} [DecidableEq E] [DecidableEq A] :
    DecidableEq (Except E A) := fun a b =>
  match a, b with
  | Except.ok x, Except.ok y =>
    if h : x = y then isTrue (by rw [h])
    else isFalse (by intro hh; cases hh; exact h rfl)
  | Except.error x, Except.error y =>
    if h : x = y then isTrue (by rw [h])
    else isFalse (by intro hh; cases hh; exact h rfl)
  | Except.ok _, Except.error _ => isFalse (by intro hh; cases hh)
  | Except.error _, Except.ok _ => isFalse (by intro hh; cases hh)

/-- Ghost trace entry: one outbound network call made by the core. -/
inductive Call where
  | grantCall (client_id : String)
  | apiCall (url : String) (bearer : String)
deriving Repr, DecidableEq

/-- The urls in a trace that went to the API transport (as opposed to
the token grant endpoint). -/
def apiUrls (calls : List Call) : List String :=
  calls.filterMap (fun c =>
    match c with
    | Call.apiCall url _ => some url
    | Call.grantCall _ => none)

/-- One NodeCache entry for key `accessToken-<index>`: the stored token
and the absolute expiry timestamp in milliseconds
(`set(key, v, ttlSeconds)` stores `t = Date.now() + ttlSeconds*1000`). -/
structure CacheEntry where
  token : AccessToken
  expiresAt : Nat
deriving Repr, DecidableEq

/-- Bottleneck constructor options, exactly the record built by the
source function `createLimiter`. -/
structure BottleneckOptions where
  reservoir : Nat
  reservoirRefreshAmount : Nat
  reservoirRefreshInterval : Nat
  maxConcurrent : Int
  minTime : Nat
deriving Repr, DecidableEq

/-- `createLimiter` from the source:
`reservoir = hourly_remaining`, `reservoirRefreshAmount = hourly_limit`,
`reservoirRefreshInterval = 1000*60*60`,
`maxConcurrent = secondly_limit - concurrentOffset`,
`minTime = Math.trunc(1000 / secondly_limit) + 25`.
For positive `secondly_limit` (the only case that occurs: it is a
parsed rate-limit header) `Math.trunc` of the positive quotient is
exactly natural-number division. -/
def createLimiter (limit : RateLimit) (concurrentOffset : Nat) : BottleneckOptions :=
  { reservoir := limit.hourly_remaining
    reservoirRefreshAmount := limit.hourly_limit
    reservoirRefreshInterval := 1000 * 60 * 60
    maxConcurrent := (limit.secondly_limit : Int) - (concurrentOffset : Int)
    minTime := 1000 / limit.secondly_limit + 25 }

/-- The mutable instance state of class `api42`: the private fields
`_secrets`, `_rootUrl`, `_limiters`, `_cache`, `_keyCount`,
`_currentIndex`, `_concurrentOffset`, plus the current wall clock in
milliseconds (`Date.now()`, read by the NodeCache expiry checks). -/
structure ApiState where
  secrets : List ApiSecret
  rootUrl : String
  limiters : List BottleneckOptions
  cache : List (Nat × CacheEntry)
  keyCount : Nat
  currentIndex : Nat
  concurrentOffset : Nat
  now : Nat
deriving Repr, DecidableEq

/-- The state the constructor builds (before the length check). -/
def mkState (secrets : List ApiSecret) (concurrentOffset : Nat) (now : Nat) : ApiState :=
  { secrets := secrets
    rootUrl := "https://api.intra.42.fr/v2"
    limiters := []
    cache := []
    keyCount := secrets.length
    currentIndex := 0
    concurrentOffset := concurrentOffset
    now := now }

/-- The `api42` constructor: throws when no credentials are supplied,
otherwise produces a fresh instance (cursor 0, no limiters, empty
token cache). `now` is the wall clock at construction time. -/
def construct (secrets : List ApiSecret) (concurrentOffset : Nat) (now : Nat) :
    Except String ApiState :=
  if secrets.length = 0 then
    Except.error "api42 requires at least one 42 Api Key/Secret pair"
  else Except.ok (mkState secrets concurrentOffset now)

/-- `getCurrentIndexAndSetNext` from the source: returns the current
cursor and advances it, wrapping to 0 from `keyCount - 1`. -/
def getCurrentIndexAndSetNext (st : ApiState) : Nat × ApiState :=
  let key := st.currentIndex
  if st.currentIndex = st.keyCount - 1 then
    (key, { st with currentIndex := 0 })
  else
    (key, { st with currentIndex := st.currentIndex + 1 })

/-- `n` successive calls of the get-and-advance dispatch operation,
collecting the returned indices in call order. -/
def callSeq (st : ApiState) : Nat → List Nat × ApiState
  | 0 => ([], st)
  | n + 1 =>
    let r := getCurrentIndexAndSetNext st
    let rest := callSeq r.2 n
    (r.1 :: rest.1, rest.2)

/-! ## Token cache (NodeCache) -/

/-- Write the cache entry for key `accessToken-<i>` (replace if the
key exists, append otherwise). -/
def cacheSet (c : List (Nat × CacheEntry)) (i : Nat) (e : CacheEntry) :
    List (Nat × CacheEntry) :=
  if c.any (fun p => p.1 == i) then
    c.map (fun p => if p.1 == i then (i, e) else p)
  else c ++ [(i, e)]

/-- Raw lookup of the cache entry for index `i`. -/
def cacheFind (c : List (Nat × CacheEntry)) (i : Nat) : Option CacheEntry :=
  (c.find? (fun p => p.1 == i)).map (fun p => p.2)

/-- `this._cache.get(key)`: NodeCache returns the stored value only
while it has not expired (an entry with `t < Date.now()` is treated as
absent). -/
def cacheGetValid (st : ApiState) (i : Nat) : Option AccessToken :=
  match cacheFind st.cache i with
  | some e => if st.now ≤ e.expiresAt then some e.token else none
  | none => none

/-- `storeToken` from the source:
`this._cache.set("accessToken-" ++ i, accessToken, accessToken.expires_in)`.
The NodeCache ttl is `expires_in` seconds, so the entry expires at
`now + expires_in * 1000` milliseconds — the declared token lifetime
with no safety margin subtracted. -/
def storeToken (st : ApiState) (accessToken : AccessToken) (index : Nat) : ApiState :=
  let entry : CacheEntry :=
    { token := accessToken, expiresAt := st.now + accessToken.expires_in * 1000 }
  { st with cache := cacheSet st.cache index entry }

/-- `getAccessToken` from the source: POSTs the client-credentials
grant for one secret; throws on a non-2xx response, otherwise returns
the token JSON. The returned trace records the grant-endpoint call. -/
def getAccessToken (env : Env) (secret : ApiSecret) :
    Except String AccessToken × List Call :=
  let g := env.grant secret
  (if 200 ≤ g.status ∧ g.status < 300 then Except.ok g.token
   else Except.error ("Error getting access token: " ++ toString g.status),
   [Call.grantCall secret.client_id])

/-- `retrieveToken` from the source: serve the cached token when it is
present and unexpired; otherwise, when a secret exists at `index`,
perform the grant exchange, store the fresh token, and return it;
otherwise reject. -/
def retrieveToken (env : Env) (st : ApiState) (index : Nat) :
    Except String AccessToken × ApiState × List Call :=
  match cacheGetValid st index with
  | some accessToken => (Except.ok accessToken, st, [])
  | none =>
    match st.secrets.get? index with
    | some secret =>
      match getAccessToken env secret with
      | (Except.ok newToken, calls) =>
        (Except.ok newToken, storeToken st newToken index, calls)
      | (Except.error e, calls) => (Except.error e, st, calls)
    | none =>
      (Except.error ("ApiSecret not found at index: " ++ toString index), st, [])

/-! ## Request path -/

/-- `parseOptions` body: fold the entries into `?k=v&k=v...`. -/
def parseOptionsList : List (String × String) → Bool → String
  | [], _ => ""
  | (k, v) :: rest, first =>
    (if first then "?" else "&") ++ k ++ "=" ++ v ++ parseOptionsList rest false

/-- `parseOptions` from the source: the query string built from the
options object (empty when no options were given). -/
def parseOptions (options : Option OptMap) : String :=
  match options with
  | none => ""
  | some m => parseOptionsList m true

/-- The full request url `this._rootUrl + endpoint + parseOptions(options)`. -/
def urlOf (st : ApiState) (endpoint : String) (options : Option OptMap) : String :=
  st.rootUrl ++ endpoint ++ parseOptions options

/-- `getFromApi` from the source: schedule one `fetch(url)` with the
bearer token on the credential's limiter and hand back the upstream
response as-is — the status is never inspected and the fetch is never
re-issued. The limiter argument only paces the call in time (modelled
separately); it does not alter the response. -/
def getFromApi (env : Env) (_limiter : BottleneckOptions) (accessToken : AccessToken)
    (url : String) : Response × List Call :=
  (env.transport url accessToken.access_token,
   [Call.apiCall url accessToken.access_token])

/-- `get` from the source: reject when no limiters have been
constructed (`.init()` not completed); otherwise take the next
dispatch index, resolve that credential's token, build the url, and
issue exactly one transport call through that credential's limiter. -/
def get (env : Env) (st : ApiState) (endpoint : String) (options : Option OptMap) :
    Except String Response × ApiState × List Call :=
  if st.limiters.length ≤ 0 then
    (Except.error "api42 not initialized, please call .init() first", st, [])
  else
    let r := getCurrentIndexAndSetNext st
    let index := r.1
    match retrieveToken env r.2 index with
    | (Except.ok accessToken, st2, calls) =>
      match st2.limiters.get? index with
      | some limiter =>
        let url := urlOf st2 endpoint options
        let fr := getFromApi env limiter accessToken url
        (Except.ok fr.1, st2, calls ++ fr.2)
      | none =>
        (Except.error "TypeError: limiter undefined", st2, calls)
    | (Except.error e, st2, calls) => (Except.error e, st2, calls)

/-- The options object as `getPage` leaves it: the caller's object
(aliased by `_options = options`, so the writes below land in the
caller's object) with `page[size]` defaulted to `"100"` when absent
and `page[number]` set to the requested page. -/
def getPageOptions (options : Option OptMap) (page : String) : OptMap :=
  let o := match options with
    | some m => m
    | none => []
  let o1 := if hasKey o "page[size]" then o else setKey o "page[size]" "100"
  setKey o1 "page[number]" page

/-- `getPage` from the source. The second component is the value of the
caller's options object after the call: because line 88 aliases the
caller's object (`_options = options`) rather than copying it, the
`page[size]`/`page[number]` writes are visible to the caller whenever
an object was passed (`some`); when no object was passed the writes go
to a fresh `{}` the caller never sees (`none`). -/
def getPage (env : Env) (st : ApiState) (url : String) (page : String)
    (options : Option OptMap) :
    (Except String Response × ApiState × List Call) × Option OptMap :=
  let merged := getPageOptions options page
  (get env st url (some merged), options.map (fun _ => merged))

/-- `Math.ceil(a / b)` on the natural numbers that occur here
(`b = 0` collapses to 0 extra pages, matching the NaN comparison
`i <= NaN` being false in the source's loop). -/
def ceilDiv (a b : Nat) : Nat := (a + b - 1) / b

/-- The per-page options object `getAllPages` builds by spreading the
caller's options and setting `page[number]`/`page[size]` (a fresh
object each time — the caller's object is not mutated here). -/
def mkSpreadOpts (options : Option OptMap) (pageNumber : Nat) (pageSize : Nat) : OptMap :=
  let base := match options with
    | some m => m
    | none => []
  setKey (setKey base "page[number]" (toString pageNumber)) "page[size]" (toString pageSize)

/-- The page size `getAllPages` uses: `parseInt(options['page[size]'])`
when that key is present, 100 otherwise. `parseInt` is modelled on
decimal numerals by `jsParseInt`; a non-numeral (JS `NaN`) is
collapsed to 0, which yields the same single-page outcome as NaN does
in the source's arithmetic. -/
def pageSizeOf (options : Option OptMap) : Nat :=
  match options with
  | some m =>
    if hasKey m "page[size]" then ((lookupKey m "page[size]").bind jsParseInt).getD 0
    else 100
  | none => 100

/-- The loop of `getAllPages`: one (un-awaited) `get` per remaining
page number, in loop order. Each entry of the result list is an
independent pending fetch (its own `Except`). -/
def pageLoop (env : Env) (st : ApiState) (url : String) (options : Option OptMap)
    (pageSize : Nat) : List Nat → List (Except String Response) × ApiState × List Call
  | [] => ([], st, [])
  | i :: rest =>
    let r := get env st url (some (mkSpreadOpts options i pageSize))
    let rr := pageLoop env r.2.1 url options pageSize rest
    (r.1 :: rr.1, rr.2.1, r.2.2 ++ rr.2.2)

/-- `getAllPages` from the source: fetch page `start` first (awaited);
if its response has no `x-total` header the result is that single
fetch; otherwise compute `totalPages = ceil(totalItems / pageSize)`
and immediately schedule pages `start+1 .. totalPages` through the
same `get` path, returning the whole sequence of page fetches. -/
def getAllPages (env : Env) (st : ApiState) (url : String) (options : Option OptMap)
    (start : Nat) :
    Except String (List (Except String Response)) × ApiState × List Call :=
  let pageSize := pageSizeOf options
  match get env st url (some (mkSpreadOpts options start pageSize)) with
  | (Except.error e, st1, calls) => (Except.error e, st1, calls)
  | (Except.ok firstPage, st1, calls) =>
    match headerGet firstPage "x-total" with
    | none => (Except.ok [Except.ok firstPage], st1, calls)
    | some tv =>
      let totalItems := (jsParseInt tv).getD 0
      let totalPages := ceilDiv totalItems pageSize
      let rr := pageLoop env st1 url options pageSize
        (List.range' (start + 1) (totalPages - start))
      (Except.ok (Except.ok firstPage :: rr.1), rr.2.1, calls ++ rr.2.2)

/-! ## Quota discovery and initialization -/

/-- Parse one rate-limit header with `parseInt` (via `jsParseInt`; the
missing/non-numeral case, `NaN` in JS, does not occur for the
well-formed headers the theorems assume). -/
def parseHeaderNat (r : Response) (k : String) : Nat :=
  ((headerGet r k).bind jsParseInt).getD 0

/-- `getRateLimits` from the source: one authenticated probe of
`/v2/cursus`; on a 2xx response the quota counters are read from the
rate-limit headers, otherwise the promise is rejected. -/
def getRateLimits (env : Env) (accessToken : AccessToken) :
    Except String RateLimit × List Call :=
  let resp := env.transport "https://api.intra.42.fr/v2/cursus" accessToken.access_token
  (if resp.ok then
    Except.ok
      { id := parseHeaderNat resp "x-application-id"
        hourly_limit := parseHeaderNat resp "x-hourly-ratelimit-limit"
        hourly_remaining := parseHeaderNat resp "x-hourly-ratelimit-remaining"
        secondly_limit := parseHeaderNat resp "x-secondly-ratelimit-limit"
        secondly_remaining := parseHeaderNat resp "x-secondly-ratelimit-remaining" }
   else Except.error ("Error getting rate limits: " ++ toString resp.status),
   [Call.apiCall "https://api.intra.42.fr/v2/cursus" accessToken.access_token])

/-- The per-credential loop of `init`: for each index, grant exchange,
`storeToken`, `retrieveToken` (a cache hit on the entry just stored),
quota probe, and `createLimiter` push. `fuel` counts the remaining
indices (`init` iterates `index = 0 .. keyCount - 1`). -/
def initLoop (env : Env) (st : ApiState) (idx : Nat) :
    Nat → Except String ApiState × List Call
  | 0 => (Except.ok st, [])
  | fuel + 1 =>
    match st.secrets.get? idx with
    | none => (Except.error "TypeError: secret undefined", [])
    | some secret =>
      match getAccessToken env secret with
      | (Except.error e, calls) => (Except.error e, calls)
      | (Except.ok accessToken, calls) =>
        let st1 := storeToken st accessToken idx
        match retrieveToken env st1 idx with
        | (Except.error e, _, calls2) => (Except.error e, calls ++ calls2)
        | (Except.ok tok2, st2, calls2) =>
          match getRateLimits env tok2 with
          | (Except.error e, calls3) => (Except.error e, calls ++ calls2 ++ calls3)
          | (Except.ok limit, calls3) =>
            let st3 := { st2 with
              limiters := st2.limiters ++ [createLimiter limit st2.concurrentOffset] }
            let r := initLoop env st3 (idx + 1) fuel
            (r.1, calls ++ calls2 ++ calls3 ++ r.2)

/-! ## The limiter's dynamic behaviour

Modelled from the spec: the scheduling engine behind the options that
`createLimiter` computes is the third-party `bottleneck` library and is
not part of this repository's sources.  Spec section 4.3 re-specifies
it as two gates; they are embedded here as two transition systems
parameterised by `BottleneckOptions`.
-/

/-- Outcome of a job submitted to a limiter: admitted and run, or
dropped with a TimeoutError while still queued. -/
inductive Outcome where
  | executed
  | timedOut
deriving Repr, DecidableEq

/-- Modelled from the spec: a job submitted to a limiter, identified by
its submission number, carrying its (optional) absolute expiration
time.  In the `src/` snapshot jobs are scheduled without an expiration
(`none`); the spec's jobs carry one (`some`). -/
structure Job where
  id : Nat
  expiresAt : Option Nat
deriving Repr, DecidableEq

/-- Modelled from the spec (section 4.3, reservoir gate): the hourly
reservoir counter, the FIFO queue of jobs waiting for capacity, the
recorded outcome of each settled job, and the next fresh job id. -/
structure ReservoirState where
  reservoir : Nat
  queue : List Job
  done : List (Nat × Outcome)
  nextId : Nat
deriving Repr, DecidableEq

/-- A freshly constructed limiter: the reservoir starts at the
configured `reservoir` option (= `hourly_remaining`). -/
def initState (opts : BottleneckOptions) : ReservoirState :=
  { reservoir := opts.reservoir, queue := [], done := [], nextId := 0 }

/-- Events of the reservoir gate: a job submission (with its optional
expiration), the hourly refill tick, and the passage of time dropping
expired queued jobs. -/
inductive REvent where
  | submit (expiresAt : Option Nat)
  | refill
  | dropExpired (now : Nat)

/-- A queued job whose expiration has elapsed at time `now`. -/
def isExpired (now : Nat) (j : Job) : Bool :=
  match j.expiresAt with
  | some d => decide (d < now)
  | none => false

/-- Modelled from the spec: one step of the reservoir gate.
A submitted job is admitted (and decrements the reservoir by one) when
the reservoir is non-empty, otherwise it queues.  The refill tick sets
the counter to `reservoirRefreshAmount` (= `hourly_limit`) and then
admits queued jobs FIFO while capacity lasts.  `dropExpired` abandons
every queued job whose expiration has elapsed, settling it with a
TimeoutError instead of executing it. -/
def stepA (opts : BottleneckOptions) (st : ReservoirState) : REvent → ReservoirState
  | REvent.submit d =>
    if 0 < st.reservoir then
      { reservoir := st.reservoir - 1, queue := st.queue
        done := st.done ++ [(st.nextId, Outcome.executed)], nextId := st.nextId + 1 }
    else
      { reservoir := st.reservoir, queue := st.queue ++ [{ id := st.nextId, expiresAt := d }]
        done := st.done, nextId := st.nextId + 1 }
  | REvent.refill =>
    let amt := opts.reservoirRefreshAmount
    { reservoir := amt - st.queue.length, queue := st.queue.drop amt
      done := st.done ++ (st.queue.take amt).map (fun j => (j.id, Outcome.executed))
      nextId := st.nextId }
  | REvent.dropExpired now =>
    { reservoir := st.reservoir, queue := st.queue.filter (fun j => ! isExpired now j)
      done := st.done ++ (st.queue.filter (isExpired now)).map (fun j => (j.id, Outcome.timedOut))
      nextId := st.nextId }

/-- Run the reservoir gate over a list of events. -/
def runA (opts : BottleneckOptions) (st : ReservoirState) : List REvent → ReservoirState
  | [] => st
  | e :: es => runA opts (stepA opts st e) es

/-- `n` consecutive submissions, each with expiration `d`. -/
def submitMany (opts : BottleneckOptions) (st : ReservoirState) (n : Nat)
    (d : Option Nat) : ReservoirState :=
  runA opts st (List.replicate n (REvent.submit d))

/-- The number of jobs a limiter has admitted and executed. -/
def executedCount (st : ReservoirState) : Nat :=
  (st.done.filter (fun p => decide (p.2 = Outcome.executed))).length

/-- Well-formedness of a reservoir state: job ids are below the fresh
counter, without duplicates, and no job is both settled and queued. -/
def WF (st : ReservoirState) : Prop :=
  (st.done.map Prod.fst).Nodup ∧
  (st.queue.map Job.id).Nodup ∧
  (∀ i ∈ st.done.map Prod.fst, i ∉ st.queue.map Job.id) ∧
  (∀ i ∈ st.done.map Prod.fst, i < st.nextId) ∧
  (∀ i ∈ st.queue.map Job.id, i < st.nextId)

/-- `init` from the source: run the per-credential loop, then schedule
one trivial compensation job per limiter (to account for the probe
request made while discovering the quotas).  The final component is
the resulting reservoir state of each limiter: its freshly constructed
state after the one compensation submission (scheduled without an
expiration in this snapshot). -/
def init (env : Env) (st : ApiState) :
    (Except String ApiState × List Call) × List ReservoirState :=
  let r := initLoop env st 0 st.keyCount
  match r.1 with
  | Except.error e => ((Except.error e, r.2), [])
  | Except.ok st1 =>
    ((Except.ok st1, r.2),
     st1.limiters.map (fun opts => stepA opts (initState opts) (REvent.submit none)))

/-! ## The concurrency/spacing gate -/

/-- Modelled from the spec (section 4.3, rate/concurrency gate): the
number of jobs currently in flight and the recorded job start times,
most recent first. -/
structure ConcState where
  inFlight : Nat
  starts : List Nat
deriving Repr, DecidableEq

/-- A limiter with no job started yet. -/
def initConc : ConcState := { inFlight := 0, starts := [] }

/-- Events of the concurrency gate: an attempt to start the next
queued job at time `now`, and the completion of a running job. -/
inductive CEvent where
  | tryStart (now : Nat)
  | finish

/-- Modelled from the spec: the gate admits a job start only when
fewer than `maxConcurrent` jobs are in flight and at least `minTime`
milliseconds have passed since the previous start. -/
def canStart (opts : BottleneckOptions) (st : ConcState) (now : Nat) : Bool :=
  decide ((st.inFlight : Int) < opts.maxConcurrent) &&
    (match st.starts with
     | [] => true
     | s :: _ => decide (s + opts.minTime ≤ now))

/-- Modelled from the spec: one step of the concurrency gate. A start
attempt that the gate refuses leaves the state unchanged (the job
keeps waiting). -/
def stepB (opts : BottleneckOptions) (st : ConcState) : CEvent → ConcState
  | CEvent.tryStart now =>
    if canStart opts st now then
      { inFlight := st.inFlight + 1, starts := now :: st.starts }
    else st
  | CEvent.finish => { st with inFlight := st.inFlight - 1 }

/-- Run the concurrency gate over a list of events. -/
def runB (opts : BottleneckOptions) (st : ConcState) : List CEvent → ConcState
  | [] => st
  | e :: es => runB opts (stepB opts st e) es

/-! ## Initialization predicate for the request-path theorems -/

/-- The shape `init` leaves the instance in, as far as the request
path depends on it: at least one credential, cursor in range, one
limiter per credential, and a valid cached token for every index. -/
def Initialized (st : ApiState) : Prop :=
  0 < st.keyCount ∧
  st.currentIndex < st.keyCount ∧
  st.limiters.length = st.keyCount ∧
  st.secrets.length = st.keyCount ∧
  ∀ i, i < st.keyCount → (cacheGetValid st i).isSome

/-- The bearer value used for index `i` (defined when `Initialized`). -/
def bearerAt (st : ApiState) (i : Nat) : String :=
  match cacheGetValid st i with
  | some tok => tok.access_token
  | none => ""

/-! ## Concrete fixtures for witnesses and counterexamples -/

/-- A concrete credential. -/
def secA : ApiSecret := { client_id := "uid-a", client_secret := "sec-a" }

/-- A second concrete credential. -/
def secB : ApiSecret := { client_id := "uid-b", client_secret := "sec-b" }

/-- A third concrete credential. -/
def secC : ApiSecret := { client_id := "uid-c", client_secret := "sec-c" }

/-- A token whose declared lifetime is 40 seconds. -/
def tok40 : AccessToken :=
  { access_token := "old-token", token_type := "bearer", expires_in := 40
    scope := "public", created_at := 0 }

/-- A fresh token as the grant endpoint would mint it. -/
def tokFresh : AccessToken :=
  { access_token := "fresh-token", token_type := "bearer", expires_in := 7200
    scope := "public", created_at := 100 }

/-- A concrete discovered quota. -/
def quotaEx : RateLimit :=
  { id := 1, hourly_limit := 1200, hourly_remaining := 1150
    secondly_limit := 4, secondly_remaining := 4 }

/-- The 5-jobs-per-hour quota of the reservoir-gate example. -/
def quota55 : RateLimit :=
  { id := 2, hourly_limit := 5, hourly_remaining := 5
    secondly_limit := 4, secondly_remaining := 4 }

/-- The instance state after one dispatch call: only the cursor moves,
to `(currentIndex + 1) % keyCount`. -/
def stNext (st : ApiState) : ApiState :=
  { st with currentIndex := (st.currentIndex + 1) % st.keyCount }

/-- A stub environment: every grant succeeds with `tokFresh`, every
transport call answers 200 with no headers. -/
def envStub : Env :=
  { grant := fun _ => { status := 200, token := tokFresh }
    transport := fun _ _ => { status := 200, headers := [] } }

/-- An environment whose transport reports `x-total: 0` on every url
(an empty collection) and whose grants succeed. -/
def envTotal0 : Env :=
  { grant := fun _ => { status := 200, token := tokFresh }
    transport := fun _ _ => { status := 200, headers := [("x-total", "0")] } }

/-- An environment whose transport reports `x-total: 250` on every url
and whose grants succeed. -/
def envTotal250 : Env :=
  { grant := fun _ => { status := 200, token := tokFresh }
    transport := fun _ _ => { status := 200, headers := [("x-total", "250")] } }

/-- An environment whose transport always answers HTTP 429
(quota exceeded) and whose grants succeed. -/
def env429 : Env :=
  { grant := fun _ => { status := 200, token := tokFresh }
    transport := fun _ _ => { status := 429, headers := [("retry-after", "3")] } }

/-- The `/v2/cursus` probe response used by the init witness: 2xx with
the five rate-limit headers. -/
def cursusResp : Response :=
  { status := 200
    headers := [("x-application-id", "7"), ("x-hourly-ratelimit-limit", "1200"),
      ("x-hourly-ratelimit-remaining", "1199"),
      ("x-secondly-ratelimit-limit", "8"),
      ("x-secondly-ratelimit-remaining", "8")] }

/-- The quota `cursusResp` encodes. -/
def quotaInit : RateLimit :=
  { id := 7, hourly_limit := 1200, hourly_remaining := 1199
    secondly_limit := 8, secondly_remaining := 8 }

/-- An environment for the init witness: grants succeed with
`tokFresh` and every transport call answers `cursusResp`. -/
def envInit : Env :=
  { grant := fun _ => { status := 200, token := tokFresh }
    transport := fun _ _ => cursusResp }

/-- A fully initialized single-credential instance at time 0, with a
valid cached token and one limiter. -/
def stOne : ApiState :=
  { secrets := [secA]
    rootUrl := "https://api.intra.42.fr/v2"
    limiters := [createLimiter quotaEx 0]
    cache := [(0, { token := tok40, expiresAt := 40000 })]
    keyCount := 1
    currentIndex := 0
    concurrentOffset := 0
    now := 0 }

/-! ## Theorems -/

theorem getCurrentIndexAndSetNext_eq (st : ApiState)
    (h : st.currentIndex < st.keyCount) :
    getCurrentIndexAndSetNext st =
      (st.currentIndex, { st with currentIndex := (st.currentIndex + 1) % st.keyCount }) := by
  have hN : 0 < st.keyCount := lt_of_le_of_lt (Nat.zero_le _) h
  simp only [getCurrentIndexAndSetNext]
  by_cases hc : st.currentIndex = st.keyCount - 1
  · have h1 : (st.currentIndex + 1) % st.keyCount = 0 := by
      have h2 : st.currentIndex + 1 = st.keyCount := by omega
      rw [h2, Nat.mod_self]
    rw [if_pos hc, h1]
  · have h1 : (st.currentIndex + 1) % st.keyCount = st.currentIndex + 1 := by
      apply Nat.mod_eq_of_lt
      omega
    rw [if_neg hc, h1]

theorem callSeq_map (n : Nat) (st : ApiState) (h : st.currentIndex < st.keyCount) :
    (callSeq st n).1 =
      (List.range n).map (fun k => (st.currentIndex + k) % st.keyCount) := by
  induction n generalizing st with
  | zero => simp [callSeq]
  | succ n ih =>
    have hN : 0 < st.keyCount := lt_of_le_of_lt (Nat.zero_le _) h
    have hlt : (st.currentIndex + 1) % st.keyCount < st.keyCount := Nat.mod_lt _ hN
    simp only [callSeq, getCurrentIndexAndSetNext_eq st h]
    rw [ih _ hlt, List.range_succ_eq_map, List.map_cons, List.map_map]
    dsimp only
    congr 1
    · rw [Nat.add_zero, Nat.mod_eq_of_lt h]
    · apply List.map_congr_left
      intro k _
      dsimp only [Function.comp]
      rw [Nat.mod_add_mod]
      congr 1
      omega

/-- C1: for every N ≥ 1 configured credentials, starting from a freshly
constructed instance (cursor 0), N successive calls of
`getCurrentIndexAndSetNext` return the indices 0, 1, ..., N-1 in
ascending order (each index in [0,N) exactly once), call N+1 returns
index 0 again, and every returned index is strictly below N. -/
theorem dispatch_round_robin (secrets : List ApiSecret) (off now0 n : Nat)
    (hN : 1 ≤ secrets.length) :
    construct secrets off now0 = Except.ok (mkState secrets off now0) ∧
    (callSeq (mkState secrets off now0) secrets.length).1 =
      List.range secrets.length ∧
    (callSeq (mkState secrets off now0) (secrets.length + 1)).1 =
      List.range secrets.length ++ [0] ∧
    ((callSeq (mkState secrets off now0) n).1).all
      (fun x => decide (x < secrets.length)) = true := by
  have hcur : (mkState secrets off now0).currentIndex <
      (mkState secrets off now0).keyCount := by
    simp only [mkState]
    omega
  have hform := fun m => callSeq_map m (mkState secrets off now0) hcur
  refine ⟨?_, ?_, ?_, ?_⟩
  · simp only [construct, mkState]
    rw [if_neg (by omega)]
  · rw [hform secrets.length]
    simp only [mkState, Nat.zero_add]
    refine (List.map_congr_left (fun k hk => ?_)).trans (List.map_id _)
    exact Nat.mod_eq_of_lt (List.mem_range.mp hk)
  · rw [hform (secrets.length + 1), List.range_succ, List.map_append]
    simp only [mkState, Nat.zero_add, List.map_cons, List.map_nil]
    congr 1
    · refine (List.map_congr_left (fun k hk => ?_)).trans (List.map_id _)
      exact Nat.mod_eq_of_lt (List.mem_range.mp hk)
    · rw [Nat.mod_self]
  · rw [hform n, List.all_eq_true]
    intro x hx
    rw [List.mem_map] at hx
    obtain ⟨k, _, hk⟩ := hx
    subst hk
    simp only [mkState, decide_eq_true_eq]
    exact Nat.mod_lt _ (by omega)

/-- Witness for C1 at three credentials and seven calls. -/
theorem dispatch_round_robin_witness :
    1 ≤ [secA, secB, secC].length ∧
    (construct [secA, secB, secC] 0 0 = Except.ok (mkState [secA, secB, secC] 0 0) ∧
     (callSeq (mkState [secA, secB, secC] 0 0) [secA, secB, secC].length).1 =
       List.range [secA, secB, secC].length ∧
     (callSeq (mkState [secA, secB, secC] 0 0) ([secA, secB, secC].length + 1)).1 =
       List.range [secA, secB, secC].length ++ [0] ∧
     ((callSeq (mkState [secA, secB, secC] 0 0) 7).1).all
       (fun x => decide (x < [secA, secB, secC].length)) = true) :=
  ⟨by decide, dispatch_round_robin [secA, secB, secC] 0 0 7 (by decide)⟩

/-- C5: every traffic-issuing operation (`get`, `getPage`,
`getAllPages`) called before initialization has completed (no limiters
constructed) rejects with the not-initialized error, issues no
outbound call at all, and leaves the instance state — in particular
the dispatch cursor and the token cache — untouched. -/
theorem uninitialized_rejects (env : Env) (st : ApiState) (endpoint u page : String)
    (o : Option OptMap) (s : Nat) (hempty : st.limiters = []) :
    get env st endpoint o =
      (Except.error "api42 not initialized, please call .init() first", st, []) ∧
    (getPage env st u page o).1 =
      (Except.error "api42 not initialized, please call .init() first", st, []) ∧
    getAllPages env st u o s =
      (Except.error "api42 not initialized, please call .init() first", st, []) ∧
    (get env st endpoint o).2.1.currentIndex = st.currentIndex ∧
    (get env st endpoint o).2.1.cache = st.cache := by
  have hget : ∀ e : String, ∀ oo : Option OptMap, get env st e oo =
      (Except.error "api42 not initialized, please call .init() first", st, []) := by
    intro e oo
    simp [get, hempty]
  refine ⟨hget endpoint o, ?_, ?_, ?_, ?_⟩
  · simp [getPage, hget]
  · simp [getAllPages, hget]
  · rw [hget endpoint o]
  · rw [hget endpoint o]

/-- Witness for C5 on a freshly constructed single-credential instance. -/
theorem uninitialized_rejects_witness :
    (mkState [secA] 0 0).limiters = [] ∧
    (get envStub (mkState [secA] 0 0) "/campus" none =
      (Except.error "api42 not initialized, please call .init() first",
       mkState [secA] 0 0, []) ∧
    (getPage envStub (mkState [secA] 0 0) "/users" "3" none).1 =
      (Except.error "api42 not initialized, please call .init() first",
       mkState [secA] 0 0, []) ∧
    getAllPages envStub (mkState [secA] 0 0) "/users" none 1 =
      (Except.error "api42 not initialized, please call .init() first",
       mkState [secA] 0 0, []) ∧
    (get envStub (mkState [secA] 0 0) "/campus" none).2.1.currentIndex =
      (mkState [secA] 0 0).currentIndex ∧
    (get envStub (mkState [secA] 0 0) "/campus" none).2.1.cache =
      (mkState [secA] 0 0).cache) :=
  ⟨rfl, uninitialized_rejects envStub (mkState [secA] 0 0) "/campus" "/users" "3"
    none 1 rfl⟩

theorem getCurrentIndexAndSetNext_stNext (st : ApiState)
    (h : st.currentIndex < st.keyCount) :
    getCurrentIndexAndSetNext st = (st.currentIndex, stNext st) :=
  getCurrentIndexAndSetNext_eq st h

theorem initialized_stNext (st : ApiState) (hinit : Initialized st) :
    Initialized (stNext st) := by
  obtain ⟨hpos, hcur, hlim, hsec, hfresh⟩ := hinit
  refine ⟨hpos, Nat.mod_lt _ hpos, hlim, hsec, ?_⟩
  intro i hi
  exact hfresh i hi

/-- On an initialized instance, `get` performs exactly one transport
call (with the current credential's cached bearer token, to the url
built from endpoint and options), returns that upstream response
unchanged, and only advances the dispatch cursor. -/
theorem get_ok (env : Env) (st : ApiState) (endpoint : String) (o : Option OptMap)
    (hinit : Initialized st) :
    get env st endpoint o =
      (Except.ok (env.transport (urlOf st endpoint o) (bearerAt st st.currentIndex)),
       stNext st,
       [Call.apiCall (urlOf st endpoint o) (bearerAt st st.currentIndex)]) := by
  obtain ⟨hpos, hcur, hlim, hsec, hfresh⟩ := hinit
  have hlen : ¬ st.limiters.length ≤ 0 := by omega
  obtain ⟨tok, htok⟩ := Option.isSome_iff_exists.mp (hfresh _ hcur)
  have htok2 : cacheGetValid (stNext st) st.currentIndex = some tok := htok
  have hllt : st.currentIndex < st.limiters.length := by omega
  have hl := List.get?_eq_get hllt
  simp only [get, getCurrentIndexAndSetNext_stNext st hcur, retrieveToken, htok2]
  rw [if_neg hlen]
  have hl2 : (stNext st).limiters.get? st.currentIndex =
      some (st.limiters.get ⟨st.currentIndex, hllt⟩) := hl
  simp only [hl2, getFromApi]
  have hurl : urlOf (stNext st) endpoint o = urlOf st endpoint o := rfl
  have hbear : bearerAt st st.currentIndex = tok.access_token := by
    simp only [bearerAt, htok]
  rw [hurl, hbear]
  simp

/-- C8: for every request issued through the core, exactly one
transport call is made per logical request — `getFromApi` performs a
single fetch and hands the upstream response back unaltered whatever
its status (429 included; no code path inspects the status), and `get`
on an initialized instance records exactly one transport call in its
trace and surfaces that response. Nothing in the core re-issues a
request on failure. -/
theorem single_transport_call_no_retry (env : Env) (st : ApiState)
    (endpoint u : String) (o : Option OptMap) (l : BottleneckOptions)
    (tok : AccessToken) (hinit : Initialized st) :
    getFromApi env l tok u =
      (env.transport u tok.access_token, [Call.apiCall u tok.access_token]) ∧
    (getFromApi env l tok u).1.status = (env.transport u tok.access_token).status ∧
    (get env st endpoint o).1 =
      Except.ok (env.transport (urlOf st endpoint o) (bearerAt st st.currentIndex)) ∧
    (get env st endpoint o).2.2 =
      [Call.apiCall (urlOf st endpoint o) (bearerAt st st.currentIndex)] := by
  refine ⟨rfl, rfl, ?_, ?_⟩ <;> rw [get_ok env st endpoint o hinit]

/-- Witness for C8 against an upstream that always answers 429. -/
theorem single_transport_call_no_retry_witness :
    Initialized stOne ∧
    (getFromApi env429 (createLimiter quotaEx 0) tok40 "https://api.intra.42.fr/v2/me" =
      (env429.transport "https://api.intra.42.fr/v2/me" tok40.access_token,
       [Call.apiCall "https://api.intra.42.fr/v2/me" tok40.access_token]) ∧
    (getFromApi env429 (createLimiter quotaEx 0) tok40
        "https://api.intra.42.fr/v2/me").1.status =
      (env429.transport "https://api.intra.42.fr/v2/me" tok40.access_token).status ∧
    (get env429 stOne "/me" none).1 =
      Except.ok (env429.transport (urlOf stOne "/me" none)
        (bearerAt stOne stOne.currentIndex)) ∧
    (get env429 stOne "/me" none).2.2 =
      [Call.apiCall (urlOf stOne "/me" none) (bearerAt stOne stOne.currentIndex)]) :=
  ⟨by unfold Initialized; decide,
   single_transport_call_no_retry env429 stOne "/me" "https://api.intra.42.fr/v2/me"
     none (createLimiter quotaEx 0) tok40 (by unfold Initialized; decide)⟩

theorem beq_false_symm (a b : String) (h : (a == b) = false) : (b == a) = false := by
  rw [beq_eq_false_iff_ne] at h ⊢
  exact fun hba => h hba.symm

theorem find_none_of_hasKey_false (m : OptMap) (k : String)
    (h : hasKey m k = false) : m.find? (fun p => p.1 == k) = none := by
  induction m with
  | nil => rfl
  | cons p m ih =>
    simp only [hasKey, List.any_cons, Bool.or_eq_false_iff] at h
    rw [List.find?_cons_of_neg, ih h.2]
    simp [h.1]

theorem find_map_replace_eq (m : OptMap) (k v : String) (h : hasKey m k = true) :
    (m.map (fun p => if p.1 == k then (k, v) else p)).find? (fun p => p.1 == k) =
      some (k, v) := by
  induction m with
  | nil => simp [hasKey] at h
  | cons p m ih =>
    by_cases hp : (p.1 == k) = true
    · simp only [List.map_cons, if_pos hp]
      rw [List.find?_cons_of_pos]
      simp
    · simp only [hasKey, List.any_cons, Bool.or_eq_true] at h
      rcases h with h | h
      · exact absurd h hp
      · simp only [List.map_cons, if_neg hp]
        rw [List.find?_cons_of_neg, ih h]
        simpa using hp

theorem find_map_replace_ne (m : OptMap) (k v k2 : String)
    (h : (k2 == k) = false) :
    (m.map (fun p => if p.1 == k then (k, v) else p)).find? (fun p => p.1 == k2) =
      m.find? (fun p => p.1 == k2) := by
  induction m with
  | nil => rfl
  | cons p m ih =>
    simp only [List.map_cons]
    by_cases hp : (p.1 == k) = true
    · have hpk : p.1 = k := by simpa using hp
      have h2 : (p.1 == k2) = false := by
        rw [hpk]
        exact beq_false_symm k2 k h
      rw [if_pos hp, List.find?_cons_of_neg, List.find?_cons_of_neg, ih]
      · simp [h2]
      · simpa using beq_false_symm k2 k h
    · rw [if_neg hp]
      by_cases hq : (p.1 == k2) = true
      · rw [List.find?_cons_of_pos, List.find?_cons_of_pos] <;> exact hq
      · rw [List.find?_cons_of_neg, List.find?_cons_of_neg, ih]
        · simpa using hq
        · simpa using hq

theorem lookupKey_setKey_self (m : OptMap) (k v : String) :
    lookupKey (setKey m k v) k = some v := by
  unfold setKey
  by_cases h : hasKey m k = true
  · rw [if_pos h]
    unfold lookupKey
    rw [find_map_replace_eq m k v h]
    rfl
  · rw [if_neg h]
    unfold lookupKey
    rw [List.find?_append, find_none_of_hasKey_false m k (by simpa using h)]
    simp [List.find?]

theorem lookupKey_setKey_ne (m : OptMap) (k v k2 : String)
    (h : (k2 == k) = false) :
    lookupKey (setKey m k v) k2 = lookupKey m k2 := by
  unfold setKey
  by_cases hh : hasKey m k = true
  · rw [if_pos hh]
    unfold lookupKey
    rw [find_map_replace_ne m k v k2 h]
  · rw [if_neg hh]
    unfold lookupKey
    rw [List.find?_append]
    have h1 : [(k, v)].find? (fun p => p.1 == k2) = none := by
      simp [List.find?, beq_false_symm k2 k h]
    rw [h1]
    cases m.find? (fun p => p.1 == k2) <;> rfl

theorem hasKey_setKey_self (m : OptMap) (k v : String) :
    hasKey (setKey m k v) k = true := by
  unfold setKey
  by_cases h : hasKey m k = true
  · rw [if_pos h]
    unfold hasKey at h ⊢
    rw [List.any_eq_true] at h ⊢
    obtain ⟨p, hp, hpk⟩ := h
    refine ⟨if p.1 == k then (k, v) else p, List.mem_map_of_mem _ hp, ?_⟩
    rw [if_pos hpk]
    simp
  · rw [if_neg h]
    unfold hasKey
    rw [List.any_append]
    simp [List.any]

theorem hasKey_setKey_ne (m : OptMap) (k v k2 : String)
    (h : (k2 == k) = false) :
    hasKey (setKey m k v) k2 = hasKey m k2 := by
  have hk2 : k2 ≠ k := beq_eq_false_iff_ne.mp h
  unfold setKey
  by_cases hh : hasKey m k = true
  · rw [if_pos hh]
    unfold hasKey
    rw [Bool.eq_iff_iff, List.any_eq_true, List.any_eq_true]
    constructor
    · rintro ⟨q, hq, hqk⟩
      rw [List.mem_map] at hq
      obtain ⟨p, hp, hpq⟩ := hq
      by_cases hpk : (p.1 == k) = true
      · rw [if_pos hpk] at hpq
        subst hpq
        have : k = k2 := by simpa using hqk
        exact absurd this.symm hk2
      · rw [if_neg hpk] at hpq
        subst hpq
        exact ⟨p, hp, hqk⟩
    · rintro ⟨p, hp, hpk⟩
      have hpne : (p.1 == k) = false := by
        have h1 : p.1 = k2 := by simpa using hpk
        rw [h1]
        exact beq_eq_false_iff_ne.mpr hk2
      have heq : (if (p.1 == k) = true then (k, v) else p) = p :=
        if_neg (by simp [hpne])
      exact ⟨p, List.mem_map.mpr ⟨p, hp, heq⟩, hpk⟩
  · rw [if_neg hh]
    unfold hasKey
    rw [List.any_append]
    have h1 : [(k, v)].any (fun p => p.1 == k2) = false := by
      simp [List.any, beq_false_symm k2 k h]
    rw [h1, Bool.or_false]

theorem getPageOptions_of_noKey (m : OptMap) (p2 : String)
    (h : hasKey m "page[size]" = false) :
    getPageOptions (some m) p2 =
      setKey (setKey m "page[size]" "100") "page[number]" p2 := by
  simp only [getPageOptions]
  rw [if_neg (by simp [h])]

theorem getPageOptions_of_hasKey (m : OptMap) (p2 : String)
    (h : hasKey m "page[size]" = true) :
    getPageOptions (some m) p2 = setKey m "page[number]" p2 := by
  simp only [getPageOptions]
  rw [if_pos h]

/-- C9: `getPage` writes `page[number]` (and `page[size]` when that key
is absent) into the very object the caller passed in — line 88 aliases
it instead of copying — so after the call the caller's options object
holds `page[number] = page` (and the default `page[size] = "100"`), and
reusing that same object for another page carries these entries over. -/
theorem getPage_mutates_caller_options (env : Env) (st : ApiState)
    (u page page2 : String) (o o2 : OptMap)
    (hsz : hasKey o2 "page[size]" = false) :
    (getPage env st u page (some o)).2 = some (getPageOptions (some o) page) ∧
    lookupKey (getPageOptions (some o) page) "page[number]" = some page ∧
    lookupKey (getPageOptions (some o2) page) "page[size]" = some "100" ∧
    lookupKey (getPageOptions (some (getPageOptions (some o2) page)) page2)
      "page[size]" = some "100" ∧
    lookupKey (getPageOptions (some (getPageOptions (some o) page)) page2)
      "page[number]" = some page2 := by
  have hne : (("page[size]" : String) == "page[number]") = false := by decide
  have hexp := getPageOptions_of_noKey o2 page hsz
  have h3 : lookupKey (getPageOptions (some o2) page) "page[size]" = some "100" := by
    rw [hexp, lookupKey_setKey_ne _ _ _ _ hne, lookupKey_setKey_self]
  have hcarry : hasKey (getPageOptions (some o2) page) "page[size]" = true := by
    rw [hexp, hasKey_setKey_ne _ _ _ _ hne, hasKey_setKey_self]
  have hexp2 := getPageOptions_of_hasKey (getPageOptions (some o2) page) page2 hcarry
  refine ⟨rfl, ?_, h3, ?_, ?_⟩
  · exact lookupKey_setKey_self _ _ _
  · rw [hexp2, lookupKey_setKey_ne _ _ _ _ hne]
    exact h3
  · exact lookupKey_setKey_self _ _ _

/-- Witness for C9: a filter-only options object and one without
`page[size]`. -/
theorem getPage_mutates_caller_options_witness :
    hasKey [("sort", "name")] "page[size]" = false ∧
    ((getPage envStub stOne "/users" "3" (some [("filter[campus]", "14")])).2 =
      some (getPageOptions (some [("filter[campus]", "14")]) "3") ∧
    lookupKey (getPageOptions (some [("filter[campus]", "14")]) "3")
      "page[number]" = some "3" ∧
    lookupKey (getPageOptions (some [("sort", "name")]) "3") "page[size]" =
      some "100" ∧
    lookupKey (getPageOptions (some (getPageOptions (some [("sort", "name")]) "3"))
      "4") "page[size]" = some "100" ∧
    lookupKey (getPageOptions
      (some (getPageOptions (some [("filter[campus]", "14")]) "3")) "4")
      "page[number]" = some "4") :=
  ⟨by decide,
   getPage_mutates_caller_options envStub stOne "/users" "3" "4"
     [("filter[campus]", "14")] [("sort", "name")] (by decide)⟩

theorem cacheAny_false_find (c : List (Nat × CacheEntry)) (i : Nat)
    (h : c.any (fun p => p.1 == i) = false) :
    c.find? (fun p => p.1 == i) = none := by
  induction c with
  | nil => rfl
  | cons p c ih =>
    simp only [List.any_cons, Bool.or_eq_false_iff] at h
    rw [List.find?_cons_of_neg, ih h.2]
    simp [h.1]

theorem cacheFind_map_replace (c : List (Nat × CacheEntry)) (i : Nat) (e : CacheEntry)
    (h : c.any (fun p => p.1 == i) = true) :
    (c.map (fun p => if p.1 == i then (i, e) else p)).find? (fun p => p.1 == i) =
      some (i, e) := by
  induction c with
  | nil => simp at h
  | cons p c ih =>
    by_cases hp : (p.1 == i) = true
    · simp only [List.map_cons, if_pos hp]
      rw [List.find?_cons_of_pos]
      simp
    · simp only [List.any_cons, Bool.or_eq_true] at h
      rcases h with h | h
      · exact absurd h hp
      · simp only [List.map_cons, if_neg hp]
        rw [List.find?_cons_of_neg, ih h]
        simpa using hp

theorem cacheFind_cacheSet_self (c : List (Nat × CacheEntry)) (i : Nat)
    (e : CacheEntry) : cacheFind (cacheSet c i e) i = some e := by
  unfold cacheSet
  by_cases h : c.any (fun p => p.1 == i) = true
  · rw [if_pos h]
    unfold cacheFind
    rw [cacheFind_map_replace c i e h]
    rfl
  · rw [if_neg h]
    unfold cacheFind
    rw [List.find?_append, cacheAny_false_find c i (Bool.eq_false_iff.mpr h)]
    simp [List.find?]

/-- The token just stored is a cache hit: its entry expires only
`expires_in` seconds in the future. -/
theorem cacheGetValid_storeToken (st : ApiState) (tok : AccessToken) (i : Nat) :
    cacheGetValid (storeToken st tok i) i = some tok := by
  unfold cacheGetValid storeToken
  simp only [cacheFind_cacheSet_self]
  rw [if_pos (Nat.le_add_right _ _)]

/-- A valid cache entry makes `retrieveToken` a pure cache hit: no
outbound call, no state change. -/
theorem retrieveToken_hit (env : Env) (st : ApiState) (i : Nat) (tok : AccessToken)
    (h : cacheGetValid st i = some tok) :
    retrieveToken env st i = (Except.ok tok, st, []) := by
  unfold retrieveToken
  rw [h]

/-- A missing or expired cache entry makes `retrieveToken` perform the
grant exchange and store the fresh token. -/
theorem retrieveToken_stale (env : Env) (st : ApiState) (i : Nat) (sec : ApiSecret)
    (hmiss : cacheGetValid st i = none)
    (hsec : st.secrets.get? i = some sec)
    (hok : 200 ≤ (env.grant sec).status ∧ (env.grant sec).status < 300) :
    retrieveToken env st i =
      (Except.ok (env.grant sec).token, storeToken st (env.grant sec).token i,
       [Call.grantCall sec.client_id]) := by
  unfold retrieveToken
  simp only [hmiss, hsec]
  unfold getAccessToken
  simp only []
  rw [if_pos hok]

/-- Counterexample to C6: `storeToken` caches with a lifetime of
exactly `expires_in` seconds (40 s here, `expiresAt = 40000 ms`, not
`expires_in − 20`), and the first call made after 20 seconds have
elapsed (at 20001 ms) is served from the cache with no grant-endpoint
request at all — the claimed 20-second safety margin does not exist in
the code. -/
theorem token_cache_no_margin_counterexample :
    cacheFind (storeToken (mkState [secA] 0 0) tok40 0).cache 0 =
      some { token := tok40, expiresAt := 40000 } ∧
    retrieveToken envStub { stOne with now := 20001 } 0 =
      (Except.ok tok40, { stOne with now := 20001 }, []) := by
  constructor
  · decide
  · apply retrieveToken_hit
    decide

/-- C6 (amended): a token obtained with declared lifetime `expires_in`
is cached for exactly `expires_in` seconds — no safety margin is
subtracted — so every call up to `expires_in` seconds after storage is
served from the cache without touching the grant endpoint, and the
first call after that re-requests the grant endpoint and stores the
fresh token. -/
theorem token_cache_lifetime (env : Env) (st st2 : ApiState) (i i2 : Nat)
    (tok : AccessToken) (e e2 : CacheEntry) (sec : ApiSecret)
    (hfind : cacheFind st.cache i = some e) (hfresh : st.now ≤ e.expiresAt)
    (hfind2 : cacheFind st2.cache i2 = some e2) (hstale : e2.expiresAt < st2.now)
    (hsec : st2.secrets.get? i2 = some sec)
    (hok : 200 ≤ (env.grant sec).status ∧ (env.grant sec).status < 300) :
    cacheFind (storeToken st tok i).cache i =
      some { token := tok, expiresAt := st.now + tok.expires_in * 1000 } ∧
    retrieveToken env st i = (Except.ok e.token, st, []) ∧
    retrieveToken env st2 i2 =
      (Except.ok (env.grant sec).token, storeToken st2 (env.grant sec).token i2,
       [Call.grantCall sec.client_id]) := by
  refine ⟨?_, ?_, ?_⟩
  · exact cacheFind_cacheSet_self _ _ _
  · apply retrieveToken_hit
    unfold cacheGetValid
    simp only [hfind]
    rw [if_pos hfresh]
  · refine retrieveToken_stale env st2 i2 sec ?_ hsec hok
    unfold cacheGetValid
    simp only [hfind2]
    rw [if_neg (by omega)]

theorem stepA_WF (opts : BottleneckOptions) (st : ReservoirState) (e : REvent)
    (hwf : WF st) : WF (stepA opts st e) := by
  obtain ⟨hdn, hqn, hdisj, hdlt, hqlt⟩ := hwf
  cases e with
  | submit d =>
    by_cases hres : 0 < st.reservoir
    · simp only [stepA, if_pos hres]
      refine ⟨?_, hqn, ?_, ?_, ?_⟩
      · rw [List.map_append, List.nodup_append]
        refine ⟨hdn, List.nodup_singleton _, ?_⟩
        intro i hi hmem
        simp only [List.map_cons, List.map_nil, List.mem_singleton] at hmem
        subst hmem
        exact absurd (hdlt _ hi) (lt_irrefl _)
      · intro i hi
        rw [List.map_append] at hi
        rcases List.mem_append.mp hi with hi | hi
        · exact hdisj i hi
        · simp only [List.map_cons, List.map_nil, List.mem_singleton] at hi
          subst hi
          intro hq
          exact absurd (hqlt _ hq) (lt_irrefl _)
      · intro i hi
        rw [List.map_append] at hi
        rcases List.mem_append.mp hi with hi | hi
        · exact Nat.lt_succ_of_lt (hdlt _ hi)
        · simp only [List.map_cons, List.map_nil, List.mem_singleton] at hi
          subst hi
          exact Nat.lt_succ_self _
      · intro i hi
        exact Nat.lt_succ_of_lt (hqlt _ hi)
    · simp only [stepA, if_neg hres]
      refine ⟨hdn, ?_, ?_, ?_, ?_⟩
      · rw [List.map_append, List.nodup_append]
        refine ⟨hqn, List.nodup_singleton _, ?_⟩
        intro i hi hmem
        simp only [List.map_cons, List.map_nil, List.mem_singleton] at hmem
        subst hmem
        exact absurd (hqlt _ hi) (lt_irrefl _)
      · intro i hi
        rw [List.map_append]
        intro hq
        rcases List.mem_append.mp hq with hq | hq
        · exact hdisj i hi hq
        · simp only [List.map_cons, List.map_nil, List.mem_singleton] at hq
          subst hq
          exact absurd (hdlt _ hi) (lt_irrefl _)
      · intro i hi
        exact Nat.lt_succ_of_lt (hdlt _ hi)
      · intro i hi
        rw [List.map_append] at hi
        rcases List.mem_append.mp hi with hi | hi
        · exact Nat.lt_succ_of_lt (hqlt _ hi)
        · simp only [List.map_cons, List.map_nil, List.mem_singleton] at hi
          subst hi
          exact Nat.lt_succ_self _
  | refill =>
    have hqsplit : (st.queue.take opts.reservoirRefreshAmount).map Job.id ++
        (st.queue.drop opts.reservoirRefreshAmount).map Job.id =
        st.queue.map Job.id := by
      rw [← List.map_append, List.take_append_drop]
    have hqn2 : ((st.queue.take opts.reservoirRefreshAmount).map Job.id ++
        (st.queue.drop opts.reservoirRefreshAmount).map Job.id).Nodup := by
      rw [hqsplit]
      exact hqn
    obtain ⟨ntake, ndrop, hdisjtd⟩ := List.nodup_append.mp hqn2
    have htakesub : ∀ i, i ∈ (st.queue.take opts.reservoirRefreshAmount).map Job.id →
        i ∈ st.queue.map Job.id := by
      intro i hi
      rw [← hqsplit]
      exact List.mem_append_left _ hi
    have hdropsub : ∀ i, i ∈ (st.queue.drop opts.reservoirRefreshAmount).map Job.id →
        i ∈ st.queue.map Job.id := by
      intro i hi
      rw [← hqsplit]
      exact List.mem_append_right _ hi
    have hmapmap : ((st.queue.take opts.reservoirRefreshAmount).map
        (fun j => (j.id, Outcome.executed))).map Prod.fst =
        (st.queue.take opts.reservoirRefreshAmount).map Job.id := by
      rw [List.map_map]
      rfl
    simp only [stepA]
    refine ⟨?_, ndrop, ?_, ?_, ?_⟩
    · rw [List.map_append, hmapmap, List.nodup_append]
      exact ⟨hdn, ntake, fun i hi hmem => hdisj i hi (htakesub i hmem)⟩
    · intro i hi
      rw [List.map_append, hmapmap] at hi
      rcases List.mem_append.mp hi with hi | hi
      · exact fun hq => hdisj i hi (hdropsub i hq)
      · exact fun hq => hdisjtd hi hq
    · intro i hi
      rw [List.map_append, hmapmap] at hi
      rcases List.mem_append.mp hi with hi | hi
      · exact hdlt _ hi
      · exact hqlt _ (htakesub i hi)
    · intro i hi
      exact hqlt _ (hdropsub i hi)
  | dropExpired now =>
    have hfsub1 : ∀ i, i ∈ (st.queue.filter (isExpired now)).map Job.id →
        i ∈ st.queue.map Job.id :=
      fun i hi => by
        rw [List.mem_map] at hi ⊢
        obtain ⟨j, hj, hji⟩ := hi
        exact ⟨j, List.mem_of_mem_filter hj, hji⟩
    have hfsub2 : ∀ i, i ∈ (st.queue.filter (fun j => ! isExpired now j)).map Job.id →
        i ∈ st.queue.map Job.id :=
      fun i hi => by
        rw [List.mem_map] at hi ⊢
        obtain ⟨j, hj, hji⟩ := hi
        exact ⟨j, List.mem_of_mem_filter hj, hji⟩
    have hinj := List.inj_on_of_nodup_map hqn
    have hmapmap2 : ((st.queue.filter (isExpired now)).map
        (fun j => (j.id, Outcome.timedOut))).map Prod.fst =
        (st.queue.filter (isExpired now)).map Job.id := by
      rw [List.map_map]
      rfl
    simp only [stepA]
    refine ⟨?_, ?_, ?_, ?_, ?_⟩
    · rw [List.map_append, hmapmap2, List.nodup_append]
      refine ⟨hdn, ?_, fun i hi hmem => hdisj i hi (hfsub1 i hmem)⟩
      exact ((List.filter_sublist _).map Job.id).nodup hqn
    · exact ((List.filter_sublist _).map Job.id).nodup hqn
    · intro i hi
      rw [List.map_append, hmapmap2] at hi
      intro hq
      rw [List.mem_map] at hq
      obtain ⟨j2, hj2, hj2i⟩ := hq
      rcases List.mem_append.mp hi with hi | hi
      · exact hdisj i hi (hfsub2 i (List.mem_map.mpr ⟨j2, hj2, hj2i⟩))
      · rw [List.mem_map] at hi
        obtain ⟨j1, hj1, hj1i⟩ := hi
        have hj12 : j1 = j2 :=
          hinj (List.mem_of_mem_filter hj1) (List.mem_of_mem_filter hj2)
            (by rw [hj1i, hj2i])
        have hp1 := List.of_mem_filter hj1
        have hp2 := List.of_mem_filter hj2
        rw [hj12] at hp1
        rw [hp1] at hp2
        exact absurd hp2 (by decide)
    · intro i hi
      rw [List.map_append, hmapmap2] at hi
      rcases List.mem_append.mp hi with hi | hi
      · exact hdlt _ hi
      · exact hqlt _ (hfsub1 i hi)
    · intro i hi
      exact hqlt _ (hfsub2 i hi)

/-- One limiter step can settle a job only with a fresh id or an id
taken from the queue, never with an id already settled; so a
TimeoutError, once recorded, is final. -/
theorem stepA_timedOut_final (opts : BottleneckOptions) (st : ReservoirState)
    (e : REvent) (id : Nat) (hwf : WF st)
    (hdone : (id, Outcome.timedOut) ∈ st.done) :
    WF (stepA opts st e) ∧ (id, Outcome.timedOut) ∈ (stepA opts st e).done ∧
    (id, Outcome.executed) ∉ (stepA opts st e).done := by
  obtain ⟨hdn, hqn, hdisj, hdlt, hqlt⟩ := hwf
  have hid : id ∈ st.done.map Prod.fst := List.mem_map.mpr ⟨_, hdone, rfl⟩
  have hnotex : (id, Outcome.executed) ∉ st.done := by
    intro hex
    have h1 := List.inj_on_of_nodup_map hdn hdone hex rfl
    simp at h1
  have hnotq : id ∉ st.queue.map Job.id := hdisj _ hid
  have hnotnext : id ≠ st.nextId := Nat.ne_of_lt (hdlt _ hid)
  refine ⟨stepA_WF opts st e ⟨hdn, hqn, hdisj, hdlt, hqlt⟩, ?_, ?_⟩
  · cases e with
    | submit d =>
      by_cases hres : 0 < st.reservoir
      · simp only [stepA, if_pos hres]
        exact List.mem_append_left _ hdone
      · simp only [stepA, if_neg hres]
        exact hdone
    | refill =>
      simp only [stepA]
      exact List.mem_append_left _ hdone
    | dropExpired now =>
      simp only [stepA]
      exact List.mem_append_left _ hdone
  · cases e with
    | submit d =>
      by_cases hres : 0 < st.reservoir
      · simp only [stepA, if_pos hres]
        intro hmem
        rcases List.mem_append.mp hmem with hmem | hmem
        · exact hnotex hmem
        · simp only [List.mem_singleton, Prod.mk.injEq] at hmem
          exact hnotnext hmem.1
      · simp only [stepA, if_neg hres]
        exact hnotex
    | refill =>
      simp only [stepA]
      intro hmem
      rcases List.mem_append.mp hmem with hmem | hmem
      · exact hnotex hmem
      · rw [List.mem_map] at hmem
        obtain ⟨j, hj, hji⟩ := hmem
        have hjid : j.id = id := (Prod.ext_iff.mp hji).1
        exact hnotq (List.mem_map.mpr ⟨j, (List.take_sublist _ _).subset hj, hjid⟩)
    | dropExpired now =>
      simp only [stepA]
      intro hmem
      rcases List.mem_append.mp hmem with hmem | hmem
      · exact hnotex hmem
      · rw [List.mem_map] at hmem
        obtain ⟨j, hj, hji⟩ := hmem
        cases hji

/-- Over any sequence of limiter events, a job settled with a
TimeoutError is never later settled as executed. -/
theorem runA_timedOut_final (opts : BottleneckOptions) (evs : List REvent)
    (st : ReservoirState) (id : Nat) (hwf : WF st)
    (hdone : (id, Outcome.timedOut) ∈ st.done) :
    (id, Outcome.timedOut) ∈ (runA opts st evs).done ∧
    (id, Outcome.executed) ∉ (runA opts st evs).done := by
  induction evs generalizing st with
  | nil =>
    refine ⟨hdone, ?_⟩
    obtain ⟨hdn, _, _, _, _⟩ := hwf
    intro hex
    have h1 := List.inj_on_of_nodup_map hdn hdone hex rfl
    simp at h1
  | cons e es ih =>
    obtain ⟨hwf2, hdone2, _⟩ := stepA_timedOut_final opts st e id hwf hdone
    exact ih (stepA opts st e) hwf2 hdone2

/-- C7: a job submitted to a per-credential limiter carries an
(optional) expiration; a job still queued when its expiration has
elapsed — e.g. behind an exhausted reservoir — is dropped by the
expiration sweep and settled with a TimeoutError, it leaves the
queue, and from that point on, over any further sequence of limiter
events, that same job's TimeoutError outcome persists and the job is
never executed — it can never resolve with a stale success. -/
theorem job_expiration_timeout (limit : RateLimit) (off : Nat)
    (st : ReservoirState) (j : Job) (dl now : Nat) (evs : List REvent)
    (hwf : WF st) (hjq : j ∈ st.queue) (hdl : j.expiresAt = some dl)
    (hnow : dl < now) :
    (j.id, Outcome.timedOut) ∈
      (stepA (createLimiter limit off) st (REvent.dropExpired now)).done ∧
    j ∉ (stepA (createLimiter limit off) st (REvent.dropExpired now)).queue ∧
    (j.id, Outcome.timedOut) ∈
      (runA (createLimiter limit off)
        (stepA (createLimiter limit off) st (REvent.dropExpired now)) evs).done ∧
    (j.id, Outcome.executed) ∉
      (runA (createLimiter limit off)
        (stepA (createLimiter limit off) st (REvent.dropExpired now)) evs).done := by
  have hexp : isExpired now j = true := by
    simp [isExpired, hdl, hnow]
  have hdrop : (j.id, Outcome.timedOut) ∈
      (stepA (createLimiter limit off) st (REvent.dropExpired now)).done := by
    simp only [stepA]
    apply List.mem_append_right
    exact List.mem_map.mpr ⟨j, List.mem_filter.mpr ⟨hjq, hexp⟩, rfl⟩
  have hwf1 : WF (stepA (createLimiter limit off) st (REvent.dropExpired now)) :=
    stepA_WF (createLimiter limit off) st (REvent.dropExpired now) hwf
  obtain ⟨hkeep, hnoexec⟩ :=
    runA_timedOut_final (createLimiter limit off) evs
      (stepA (createLimiter limit off) st (REvent.dropExpired now)) j.id hwf1 hdrop
  refine ⟨hdrop, ?_, hkeep, hnoexec⟩
  simp only [stepA]
  intro hmem
  have h1 := List.of_mem_filter hmem
  rw [hexp] at h1
  exact absurd h1 (by decide)

/-- Witness for C7: the first and only job of a fresh limiter
(nothing settled yet), queued behind an exhausted reservoir with
expiration 5, swept at time 6, then a refill and a new submission. -/
theorem job_expiration_timeout_witness :
    (WF ⟨0, [⟨0, some 5⟩], [], 1⟩ ∧
     (⟨0, some 5⟩ : Job) ∈ (⟨0, [⟨0, some 5⟩], [], 1⟩ : ReservoirState).queue ∧
     (⟨0, some 5⟩ : Job).expiresAt = some 5 ∧ (5 : Nat) < 6) ∧
    (((⟨0, some 5⟩ : Job).id, Outcome.timedOut) ∈
      (stepA (createLimiter quotaEx 0) ⟨0, [⟨0, some 5⟩], [], 1⟩
        (REvent.dropExpired 6)).done ∧
     (⟨0, some 5⟩ : Job) ∉
      (stepA (createLimiter quotaEx 0) ⟨0, [⟨0, some 5⟩], [], 1⟩
        (REvent.dropExpired 6)).queue ∧
     ((⟨0, some 5⟩ : Job).id, Outcome.timedOut) ∈
      (runA (createLimiter quotaEx 0)
        (stepA (createLimiter quotaEx 0) ⟨0, [⟨0, some 5⟩], [], 1⟩
          (REvent.dropExpired 6))
        [REvent.refill, REvent.submit none]).done ∧
     ((⟨0, some 5⟩ : Job).id, Outcome.executed) ∉
      (runA (createLimiter quotaEx 0)
        (stepA (createLimiter quotaEx 0) ⟨0, [⟨0, some 5⟩], [], 1⟩
          (REvent.dropExpired 6))
        [REvent.refill, REvent.submit none]).done) :=
  ⟨⟨by unfold WF; decide, by decide, rfl, by decide⟩,
   job_expiration_timeout quotaEx 0 ⟨0, [⟨0, some 5⟩], [], 1⟩ ⟨0, some 5⟩ 5 6
     [REvent.refill, REvent.submit none]
     (by unfold WF; decide) (by decide) rfl (by decide)⟩

/-- C2: the limiter's hourly reservoir is initialized to
`hourly_remaining`, decremented by one per admitted job, and refilled
to `hourly_limit` on a fixed one-hour cycle (3 600 000 ms); a limiter
with `hourly_remaining = 5, hourly_limit = 5` admits exactly 5 jobs,
queues the 6th, and only the hourly refill settles it (leaving 4 units
of capacity). -/
theorem hourly_reservoir_gate (limit limit5 : RateLimit) (off off5 : Nat)
    (dl : Option Nat) (st stq : ReservoirState)
    (hres : 0 < st.reservoir) (hq : stq.queue = [])
    (h5r : limit5.hourly_remaining = 5) (h5l : limit5.hourly_limit = 5) :
    (initState (createLimiter limit off)).reservoir = limit.hourly_remaining ∧
    (createLimiter limit off).reservoirRefreshInterval = 1000 * 60 * 60 ∧
    (stepA (createLimiter limit off) st (REvent.submit dl)).reservoir =
      st.reservoir - 1 ∧
    executedCount (stepA (createLimiter limit off) st (REvent.submit dl)) =
      executedCount st + 1 ∧
    (stepA (createLimiter limit off) stq REvent.refill).reservoir =
      limit.hourly_limit ∧
    executedCount (submitMany (createLimiter limit5 off5)
      (initState (createLimiter limit5 off5)) 6 dl) = 5 ∧
    (submitMany (createLimiter limit5 off5)
      (initState (createLimiter limit5 off5)) 6 dl).queue.length = 1 ∧
    executedCount (stepA (createLimiter limit5 off5)
      (submitMany (createLimiter limit5 off5)
        (initState (createLimiter limit5 off5)) 6 dl) REvent.refill) = 6 ∧
    (stepA (createLimiter limit5 off5)
      (submitMany (createLimiter limit5 off5)
        (initState (createLimiter limit5 off5)) 6 dl) REvent.refill).queue = [] ∧
    (stepA (createLimiter limit5 off5)
      (submitMany (createLimiter limit5 off5)
        (initState (createLimiter limit5 off5)) 6 dl) REvent.refill).reservoir = 4 := by
  have hinit5 : initState (createLimiter limit5 off5) =
      ⟨5, [], [], 0⟩ := by
    simp [initState, createLimiter, h5r]
  have hrun : submitMany (createLimiter limit5 off5) ⟨5, [], [], 0⟩ 6 dl =
      ⟨0, [⟨5, dl⟩],
       [(0, Outcome.executed), (1, Outcome.executed), (2, Outcome.executed),
        (3, Outcome.executed), (4, Outcome.executed)], 6⟩ := rfl
  have hamt : (createLimiter limit5 off5).reservoirRefreshAmount = 5 := by
    simp [createLimiter, h5l]
  have hstep : stepA (createLimiter limit5 off5)
      ⟨0, [⟨5, dl⟩],
       [(0, Outcome.executed), (1, Outcome.executed), (2, Outcome.executed),
        (3, Outcome.executed), (4, Outcome.executed)], 6⟩ REvent.refill =
      ⟨4, [],
       [(0, Outcome.executed), (1, Outcome.executed), (2, Outcome.executed),
        (3, Outcome.executed), (4, Outcome.executed), (5, Outcome.executed)], 6⟩ := by
    simp only [stepA, hamt]
    rfl
  refine ⟨rfl, rfl, ?_, ?_, ?_, ?_, ?_, ?_, ?_, ?_⟩
  · simp only [stepA, if_pos hres]
  · simp only [stepA, if_pos hres, executedCount]
    rw [List.filter_append, List.length_append]
    simp [List.filter]
  · simp only [stepA, hq]
    simp [createLimiter]
  · rw [hinit5, hrun]
    rfl
  · rw [hinit5, hrun]
    rfl
  · rw [hinit5, hrun, hstep]
    rfl
  · rw [hinit5, hrun, hstep]
  · rw [hinit5, hrun, hstep]

/-- Witness for C2 at the 5/5 quota. -/
theorem hourly_reservoir_gate_witness :
    (0 < (⟨3, [], [], 0⟩ : ReservoirState).reservoir ∧
     (⟨2, [], [], 0⟩ : ReservoirState).queue = [] ∧
     quota55.hourly_remaining = 5 ∧ quota55.hourly_limit = 5) ∧
    ((initState (createLimiter quotaEx 0)).reservoir = quotaEx.hourly_remaining ∧
     (createLimiter quotaEx 0).reservoirRefreshInterval = 1000 * 60 * 60 ∧
     (stepA (createLimiter quotaEx 0) ⟨3, [], [], 0⟩
       (REvent.submit none)).reservoir = (⟨3, [], [], 0⟩ : ReservoirState).reservoir - 1 ∧
     executedCount (stepA (createLimiter quotaEx 0) ⟨3, [], [], 0⟩
       (REvent.submit none)) = executedCount ⟨3, [], [], 0⟩ + 1 ∧
     (stepA (createLimiter quotaEx 0) ⟨2, [], [], 0⟩ REvent.refill).reservoir =
       quotaEx.hourly_limit ∧
     executedCount (submitMany (createLimiter quota55 1)
       (initState (createLimiter quota55 1)) 6 none) = 5 ∧
     (submitMany (createLimiter quota55 1)
       (initState (createLimiter quota55 1)) 6 none).queue.length = 1 ∧
     executedCount (stepA (createLimiter quota55 1)
       (submitMany (createLimiter quota55 1)
         (initState (createLimiter quota55 1)) 6 none) REvent.refill) = 6 ∧
     (stepA (createLimiter quota55 1)
       (submitMany (createLimiter quota55 1)
         (initState (createLimiter quota55 1)) 6 none) REvent.refill).queue = [] ∧
     (stepA (createLimiter quota55 1)
       (submitMany (createLimiter quota55 1)
         (initState (createLimiter quota55 1)) 6 none) REvent.refill).reservoir = 4) :=
  ⟨⟨by decide, rfl, rfl, rfl⟩,
   hourly_reservoir_gate quotaEx quota55 0 1 none ⟨3, [], [], 0⟩ ⟨2, [], [], 0⟩
     (by decide) rfl rfl rfl⟩

theorem canStart_spec (opts : BottleneckOptions) (st : ConcState) (now : Nat)
    (h : canStart opts st now = true) :
    (st.inFlight : Int) < opts.maxConcurrent ∧
    (∀ s rest, st.starts = s :: rest → s + opts.minTime ≤ now) := by
  unfold canStart at h
  rw [Bool.and_eq_true] at h
  obtain ⟨h1, h2⟩ := h
  refine ⟨of_decide_eq_true h1, ?_⟩
  intro s rest hs
  rw [hs] at h2
  exact of_decide_eq_true h2

/-- The concurrency gate invariant: in-flight jobs never exceed
`maxConcurrent` (when non-negative) and recorded start times are
always at least `minTime` apart. -/
theorem runB_invariant (opts : BottleneckOptions) (evs : List CEvent)
    (st : ConcState)
    (hfl : (st.inFlight : Int) ≤ max opts.maxConcurrent 0)
    (hch : List.Chain' (fun a b => b + opts.minTime ≤ a) st.starts) :
    ((runB opts st evs).inFlight : Int) ≤ max opts.maxConcurrent 0 ∧
    List.Chain' (fun a b => b + opts.minTime ≤ a) (runB opts st evs).starts := by
  induction evs generalizing st with
  | nil => exact ⟨hfl, hch⟩
  | cons e es ih =>
    have hstep : ((stepB opts st e).inFlight : Int) ≤ max opts.maxConcurrent 0 ∧
        List.Chain' (fun a b => b + opts.minTime ≤ a) (stepB opts st e).starts := by
      cases e with
      | tryStart now =>
        by_cases hc : canStart opts st now = true
        · obtain ⟨h1, h2⟩ := canStart_spec opts st now hc
          constructor
          · simp only [stepB, if_pos hc]
            rw [Nat.cast_add, Nat.cast_one]
            exact le_trans (Int.lt_iff_add_one_le.mp h1) (le_max_left _ _)
          · simp only [stepB, if_pos hc]
            cases hs : st.starts with
            | nil => simp
            | cons s rest =>
              rw [List.chain'_cons]
              exact ⟨h2 s rest hs, hs ▸ hch⟩
        · simp only [stepB, if_neg hc]
          exact ⟨hfl, hch⟩
      | finish =>
        refine ⟨?_, hch⟩
        simp only [stepB]
        exact le_trans (Nat.cast_le.mpr (Nat.sub_le _ _)) hfl
    exact ih _ hstep.1 hstep.2

/-- C3: with the options `createLimiter` computes from a discovered
quota and the configured `concurrentOffset`, the limiter never has
more than `secondly_limit − concurrentOffset` jobs in flight
simultaneously, consecutive job starts are at least
`minTime = floor(1000 / secondly_limit) + 25` milliseconds apart
(25 ms being the fixed safety margin), whatever the event sequence;
in particular `secondly_limit = 4, concurrentOffset = 1` bounds the
in-flight count by 3. -/
theorem concurrency_gate_bound (limit : RateLimit) (off : Nat) (evs : List CEvent)
    (hoff : off ≤ limit.secondly_limit) :
    (runB (createLimiter limit off) initConc evs).inFlight ≤
      limit.secondly_limit - off ∧
    List.Chain' (fun a b => b + (createLimiter limit off).minTime ≤ a)
      (runB (createLimiter limit off) initConc evs).starts ∧
    (createLimiter limit off).minTime = 1000 / limit.secondly_limit + 25 ∧
    (createLimiter limit off).maxConcurrent =
      (limit.secondly_limit : Int) - (off : Int) := by
  have hmax : max (createLimiter limit off).maxConcurrent 0 =
      ((limit.secondly_limit - off : Nat) : Int) := by
    simp only [createLimiter]
    rw [max_eq_left (sub_nonneg.mpr (by exact_mod_cast hoff)), Nat.cast_sub hoff]
  have hbase : ((initConc.inFlight : Nat) : Int) ≤
      max (createLimiter limit off).maxConcurrent 0 := by
    simp only [initConc, Nat.cast_zero]
    exact le_max_right _ _
  have hchain : List.Chain' (fun a b => b + (createLimiter limit off).minTime ≤ a)
      initConc.starts := by
    simp [initConc]
  obtain ⟨h1, h2⟩ := runB_invariant (createLimiter limit off) evs initConc hbase hchain
  refine ⟨?_, h2, rfl, rfl⟩
  rw [hmax] at h1
  exact_mod_cast h1

/-- Witness for C3: `secondly_limit = 4`, `concurrentOffset = 1`,
four gate events. -/
theorem concurrency_gate_bound_witness :
    1 ≤ quotaEx.secondly_limit ∧
    ((runB (createLimiter quotaEx 1) initConc
       [CEvent.tryStart 0, CEvent.tryStart 300, CEvent.finish,
        CEvent.tryStart 600]).inFlight ≤ quotaEx.secondly_limit - 1 ∧
     List.Chain' (fun a b => b + (createLimiter quotaEx 1).minTime ≤ a)
       (runB (createLimiter quotaEx 1) initConc
         [CEvent.tryStart 0, CEvent.tryStart 300, CEvent.finish,
          CEvent.tryStart 600]).starts ∧
     (createLimiter quotaEx 1).minTime = 1000 / quotaEx.secondly_limit + 25 ∧
     (createLimiter quotaEx 1).maxConcurrent =
       (quotaEx.secondly_limit : Int) - (1 : Nat) ) :=
  ⟨by decide,
   concurrency_gate_bound quotaEx 1
     [CEvent.tryStart 0, CEvent.tryStart 300, CEvent.finish, CEvent.tryStart 600]
     (by decide)⟩

theorem apiUrls_append (c1 c2 : List Call) :
    apiUrls (c1 ++ c2) = apiUrls c1 ++ apiUrls c2 := by
  unfold apiUrls
  rw [List.filterMap_append]

/-- The loop of `getAllPages` on an initialized instance with fresh
tokens: one pending fetch and one transport call per page number, urls
built from the spread options, the token cache untouched, only the
cursor moved. -/
theorem pageLoop_spec (env : Env) (u : String) (options : Option OptMap) (ps : Nat)
    (nums : List Nat) :
    ∀ (st : ApiState), Initialized st →
    (pageLoop env st u options ps nums).1.length = nums.length ∧
    apiUrls (pageLoop env st u options ps nums).2.2 =
      nums.map (fun i => urlOf st u (some (mkSpreadOpts options i ps))) ∧
    Initialized (pageLoop env st u options ps nums).2.1 ∧
    (pageLoop env st u options ps nums).2.1.rootUrl = st.rootUrl ∧
    (pageLoop env st u options ps nums).2.1.cache = st.cache := by
  induction nums with
  | nil =>
    intro st hinit
    exact ⟨rfl, rfl, hinit, rfl, rfl⟩
  | cons i rest ih =>
    intro st hinit
    have hget := get_ok env st u (some (mkSpreadOpts options i ps)) hinit
    obtain ⟨hlen, hurls, hinit2, hroot, hcache⟩ := ih (stNext st) (initialized_stNext st hinit)
    have hfun : (fun j => urlOf (stNext st) u (some (mkSpreadOpts options j ps))) =
        (fun j => urlOf st u (some (mkSpreadOpts options j ps))) := rfl
    simp only [pageLoop, hget]
    refine ⟨?_, ?_, hinit2, hroot, hcache⟩
    · simp only [List.length_cons, hlen]
    · rw [apiUrls_append, hurls, hfun]
      rfl

/-- Counterexample to C4: against an upstream reporting a total count
of 0 items (`x-total: 0`) with page size 100 and start page 1, the
claim's formula `ceil(totalItems / pageSize) − s + 1 = 0 − 1 + 1 = 0`
predicts an empty sequence, but the code always fetches the first page
and returns exactly one page fetch. -/
theorem getAllPages_count_counterexample :
    (getAllPages envTotal0 stOne "/x" none 1).1.toOption.map List.length =
      some 1 ∧
    ((ceilDiv 0 100 : Int) - 1 + 1 = 0) ∧
    (getAllPages envTotal0 stOne "/x" none 1).1.toOption.map List.length ≠
      some 0 := by
  refine ⟨by decide, by decide, by decide⟩

/-- C4 (amended): `getAllPages` always fetches the first page (number
`s`); when its response carries the total-count header `x-total` with
value `totalItems`, the returned sequence holds exactly
`1 + max(ceil(totalItems / pageSize) − s, 0)` page fetches, issued for
page numbers `s, s+1, ..., totalPages` (only page `s` when
`totalPages ≤ s`); when the header is absent the sequence is exactly
the single first-page fetch. -/
theorem getAllPages_page_counts (env env2 : Env) (st st2 : ApiState) (u u2 : String)
    (options options2 : Option OptMap) (s s2 totalItems : Nat) (tv : String)
    (hinit : Initialized st)
    (hx : headerGet (env.transport
        (urlOf st u (some (mkSpreadOpts options s (pageSizeOf options))))
        (bearerAt st st.currentIndex)) "x-total" = some tv)
    (htv : jsParseInt tv = some totalItems)
    (hinit2 : Initialized st2)
    (hx2 : headerGet (env2.transport
        (urlOf st2 u2 (some (mkSpreadOpts options2 s2 (pageSizeOf options2))))
        (bearerAt st2 st2.currentIndex)) "x-total" = none) :
    (getAllPages env st u options s).1.toOption.map List.length =
      some (1 + (ceilDiv totalItems (pageSizeOf options) - s)) ∧
    apiUrls (getAllPages env st u options s).2.2 =
      (s :: List.range' (s + 1) (ceilDiv totalItems (pageSizeOf options) - s)).map
        (fun i => urlOf st u (some (mkSpreadOpts options i (pageSizeOf options)))) ∧
    (getAllPages env2 st2 u2 options2 s2).1.toOption.map List.length = some 1 ∧
    apiUrls (getAllPages env2 st2 u2 options2 s2).2.2 =
      [urlOf st2 u2 (some (mkSpreadOpts options2 s2 (pageSizeOf options2)))] := by
  have hget := get_ok env st u (some (mkSpreadOpts options s (pageSizeOf options))) hinit
  have hget2 := get_ok env2 st2 u2 (some (mkSpreadOpts options2 s2 (pageSizeOf options2)))
    hinit2
  obtain ⟨hlen, hurls, _, _, _⟩ :=
    pageLoop_spec env u options (pageSizeOf options)
      (List.range' (s + 1) (ceilDiv totalItems (pageSizeOf options) - s))
      (stNext st) (initialized_stNext st hinit)
  have hfun : (fun j => urlOf (stNext st) u (some (mkSpreadOpts options j
      (pageSizeOf options)))) =
      (fun j => urlOf st u (some (mkSpreadOpts options j (pageSizeOf options)))) := rfl
  refine ⟨?_, ?_, ?_, ?_⟩
  · simp only [getAllPages, hget, hx, htv, Option.getD_some]
    simp [Except.toOption, hlen, List.length_range', Nat.add_comm]
  · simp only [getAllPages, hget, hx, htv, Option.getD_some]
    rw [apiUrls_append, hurls, hfun]
    rfl
  · simp only [getAllPages, hget2, hx2]
    rfl
  · simp only [getAllPages, hget2, hx2]
    rfl

/-- Witness for the amended C4: `x-total: 250`, page size 100, start 1
(three fetches) and a header-less resource (one fetch). -/
theorem getAllPages_page_counts_witness :
    (Initialized stOne ∧
     headerGet (envTotal250.transport
        (urlOf stOne "/users" (some (mkSpreadOpts none 1 (pageSizeOf none))))
        (bearerAt stOne stOne.currentIndex)) "x-total" = some "250" ∧
     jsParseInt "250" = some 250 ∧
     headerGet (envStub.transport
        (urlOf stOne "/users" (some (mkSpreadOpts none 1 (pageSizeOf none))))
        (bearerAt stOne stOne.currentIndex)) "x-total" = none) ∧
    ((getAllPages envTotal250 stOne "/users" none 1).1.toOption.map List.length =
      some (1 + (ceilDiv 250 (pageSizeOf none) - 1)) ∧
     apiUrls (getAllPages envTotal250 stOne "/users" none 1).2.2 =
      (1 :: List.range' (1 + 1) (ceilDiv 250 (pageSizeOf none) - 1)).map
        (fun i => urlOf stOne "/users" (some (mkSpreadOpts none i (pageSizeOf none)))) ∧
     (getAllPages envStub stOne "/users" none 1).1.toOption.map List.length =
       some 1 ∧
     apiUrls (getAllPages envStub stOne "/users" none 1).2.2 =
       [urlOf stOne "/users" (some (mkSpreadOpts none 1 (pageSizeOf none)))]) :=
  ⟨⟨by unfold Initialized; decide, by decide, by decide, by decide⟩,
   getAllPages_page_counts envTotal250 envStub stOne stOne "/users" "/users"
     none none 1 1 250 "250" (by unfold Initialized; decide) (by decide) (by decide)
     (by unfold Initialized; decide) (by decide)⟩

/-- The per-credential loop of `init`: when every grant succeeds and
every quota probe parses, it pushes one limiter per remaining
credential, in index order, each configured from that credential's
discovered quota and the instance's `concurrentOffset`. -/
theorem initLoop_ok (env : Env) (quotas : Nat → RateLimit) :
    ∀ (fuel idx : Nat) (st : ApiState),
    st.secrets.length = st.keyCount →
    idx + fuel = st.keyCount →
    (∀ i, i < st.keyCount →
      200 ≤ (env.grant (st.secrets.getD i ⟨"", ""⟩)).status ∧
      (env.grant (st.secrets.getD i ⟨"", ""⟩)).status < 300) →
    (∀ i, i < st.keyCount →
      (getRateLimits env (env.grant (st.secrets.getD i ⟨"", ""⟩)).token).1 =
        Except.ok (quotas i)) →
    ((initLoop env st idx fuel).1).toOption.map ApiState.limiters =
      some (st.limiters ++ (List.range' idx fuel).map
        (fun i => createLimiter (quotas i) st.concurrentOffset)) := by
  intro fuel
  induction fuel with
  | zero =>
    intro idx st hsl hcnt Hg Hq
    simp [initLoop, Except.toOption]
  | succ fuel ih =>
    intro idx st hsl hcnt Hg Hq
    have hidx : idx < st.keyCount := by omega
    have hlt : idx < st.secrets.length := by omega
    have hgd : st.secrets.getD idx ⟨"", ""⟩ = st.secrets.get ⟨idx, hlt⟩ := by
      rw [List.getD_eq_getElem?_getD, ← List.get?_eq_getElem?, List.get?_eq_get hlt]
      rfl
    have hsec : st.secrets.get? idx = some (st.secrets.getD idx ⟨"", ""⟩) := by
      rw [hgd]
      exact List.get?_eq_get hlt
    have hga : getAccessToken env (st.secrets.getD idx ⟨"", ""⟩) =
        (Except.ok ((env.grant (st.secrets.getD idx ⟨"", ""⟩)).token),
         [Call.grantCall (st.secrets.getD idx ⟨"", ""⟩).client_id]) := by
      simp only [getAccessToken]
      rw [if_pos (Hg idx hidx)]
    have hrt := retrieveToken_hit env
      (storeToken st (env.grant (st.secrets.getD idx ⟨"", ""⟩)).token idx) idx
      (env.grant (st.secrets.getD idx ⟨"", ""⟩)).token
      (cacheGetValid_storeToken st _ idx)
    have hpair : getRateLimits env (env.grant (st.secrets.getD idx ⟨"", ""⟩)).token =
        (Except.ok (quotas idx),
         [Call.apiCall "https://api.intra.42.fr/v2/cursus"
           (env.grant (st.secrets.getD idx ⟨"", ""⟩)).token.access_token]) :=
      Prod.ext (Hq idx hidx) rfl
    simp only [initLoop, hsec, hga, hrt, hpair]
    refine Eq.trans (ih (idx + 1) _ ?_ ?_ ?_ ?_) ?_
    · exact hsl
    · show idx + 1 + fuel = st.keyCount
      omega
    · exact Hg
    · exact Hq
    · congr 1
      rw [show List.range' idx (fuel + 1) = idx :: List.range' (idx + 1) fuel from rfl]
      simp
      rfl

/-- C10: after `init` resolves for N configured credentials, exactly N
limiters exist, one per credential in configuration order, each built
by `createLimiter` from that credential's discovered quota; and
exactly one compensation job has been scheduled on each limiter, so
the reservoir available for caller traffic right after `init` is
`hourly_remaining − 1` per credential, with the compensation job
already counted as executed. -/
theorem init_limiters_compensation (env : Env) (secrets : List ApiSecret)
    (off now0 : Nat) (quotas : Nat → RateLimit)
    (Hg : ∀ i, i < secrets.length →
      200 ≤ (env.grant (secrets.getD i ⟨"", ""⟩)).status ∧
      (env.grant (secrets.getD i ⟨"", ""⟩)).status < 300)
    (Hq : ∀ i, i < secrets.length →
      (getRateLimits env (env.grant (secrets.getD i ⟨"", ""⟩)).token).1 =
        Except.ok (quotas i))
    (Hr : ∀ i, i < secrets.length → 0 < (quotas i).hourly_remaining) :
    ((init env (mkState secrets off now0)).1.1).toOption.map ApiState.limiters =
      some ((List.range secrets.length).map
        (fun i => createLimiter (quotas i) off)) ∧
    (init env (mkState secrets off now0)).2 =
      (List.range secrets.length).map (fun i =>
        ({ reservoir := (quotas i).hourly_remaining - 1, queue := []
           done := [(0, Outcome.executed)], nextId := 1 } : ReservoirState)) := by
  have hcnt : 0 + (mkState secrets off now0).keyCount =
      (mkState secrets off now0).keyCount := Nat.zero_add _
  have hloop := initLoop_ok env quotas ((mkState secrets off now0).keyCount) 0
    (mkState secrets off now0) rfl hcnt Hg Hq
  have hlim : ((initLoop env (mkState secrets off now0) 0
      (mkState secrets off now0).keyCount).1).toOption.map ApiState.limiters =
      some ((List.range secrets.length).map
        (fun i => createLimiter (quotas i) off)) := by
    rw [hloop]
    congr 1
    show [] ++ (List.range' 0 secrets.length).map
        (fun i => createLimiter (quotas i) off) = _
    rw [List.nil_append, ← List.range_eq_range']
  rcases hres : (initLoop env (mkState secrets off now0) 0
      (mkState secrets off now0).keyCount).1 with e | st1
  · rw [hres] at hlim
    simp [Except.toOption] at hlim
  · rw [hres] at hlim
    have hl1 : st1.limiters = (List.range secrets.length).map
        (fun i => createLimiter (quotas i) off) := by
      simpa [Except.toOption] using hlim
    constructor
    · simp only [init, hres]
      simpa [Except.toOption] using hl1
    · simp only [init, hres]
      rw [hl1, List.map_map]
      apply List.map_congr_left
      intro i hi
      rw [List.mem_range] at hi
      have hri := Hr i hi
      simp only [Function.comp, stepA, initState, createLimiter]
      rw [if_pos hri]
      rfl

/-- Witness for C10 at two credentials, each with quota `quotaInit`. -/
theorem init_limiters_compensation_witness :
    ((∀ i, i < [secA, secB].length →
        200 ≤ (envInit.grant ([secA, secB].getD i ⟨"", ""⟩)).status ∧
        (envInit.grant ([secA, secB].getD i ⟨"", ""⟩)).status < 300) ∧
     (∀ i, i < [secA, secB].length →
        (getRateLimits envInit
          (envInit.grant ([secA, secB].getD i ⟨"", ""⟩)).token).1 =
         Except.ok ((fun _ => quotaInit) i)) ∧
     (∀ i, i < [secA, secB].length →
        0 < ((fun _ => quotaInit) i : RateLimit).hourly_remaining)) ∧
    (((init envInit (mkState [secA, secB] 0 0)).1.1).toOption.map
        ApiState.limiters =
      some ((List.range [secA, secB].length).map
        (fun i => createLimiter ((fun _ => quotaInit) i) 0)) ∧
     (init envInit (mkState [secA, secB] 0 0)).2 =
      (List.range [secA, secB].length).map (fun i =>
        ({ reservoir := ((fun _ => quotaInit) i : RateLimit).hourly_remaining - 1
           queue := [], done := [(0, Outcome.executed)], nextId := 1 } :
          ReservoirState))) :=
  ⟨⟨by decide, by decide, by decide⟩,
   init_limiters_compensation envInit [secA, secB] 0 0 (fun _ => quotaInit)
     (by decide) (by decide) (by decide)⟩

/-- Witness for the amended C6: the 40-second token is served from
cache at 10 s and re-requested at 40.001 s. -/
theorem token_cache_lifetime_witness :
    (cacheFind ({ stOne with now := 10000 } : ApiState).cache 0 =
       some { token := tok40, expiresAt := 40000 } ∧
     ({ stOne with now := 10000 } : ApiState).now ≤ 40000 ∧
     cacheFind ({ stOne with now := 40001 } : ApiState).cache 0 =
       some { token := tok40, expiresAt := 40000 } ∧
     (40000 : Nat) < ({ stOne with now := 40001 } : ApiState).now ∧
     ({ stOne with now := 40001 } : ApiState).secrets.get? 0 = some secA ∧
     (200 ≤ (envStub.grant secA).status ∧ (envStub.grant secA).status < 300)) ∧
    (cacheFind (storeToken { stOne with now := 10000 } tok40 0).cache 0 =
       some { token := tok40
              expiresAt := ({ stOne with now := 10000 } : ApiState).now +
                tok40.expires_in * 1000 } ∧
     retrieveToken envStub { stOne with now := 10000 } 0 =
       (Except.ok tok40, { stOne with now := 10000 }, []) ∧
     retrieveToken envStub { stOne with now := 40001 } 0 =
       (Except.ok (envStub.grant secA).token,
        storeToken { stOne with now := 40001 } (envStub.grant secA).token 0,
        [Call.grantCall secA.client_id])) :=
  ⟨⟨by decide, by decide, by decide, by decide, by decide, by decide⟩,
   token_cache_lifetime envStub { stOne with now := 10000 }
     { stOne with now := 40001 } 0 0 tok40
     { token := tok40, expiresAt := 40000 } { token := tok40, expiresAt := 40000 }
     secA (by decide) (by decide) (by decide) (by decide) (by decide) (by decide)⟩

end Fast42
